import Mathlib

/-!
# Verification of the Skill Story frontend session / request-retry logic

A shallow embedding of the Skill Story LMS frontend's API client
(`src/api/client.js`, the version with JWT refresh-once behaviour),
the auth context (`src/context/AuthContext.js`) and the optimistic-update
handlers (`AuthoringDashboard.jsx`, `StoryBrowser.js`), together with
proofs about the session-token lifecycle, the 401-refresh-retry path,
the demo-data fallback and the optimistic rollback behaviour.

Modelling conventions:
* JavaScript values flowing through the client are modelled by the `Json`
  inductive below; response bodies are modelled after the client's own
  parsing step (JSON bodies as `Json` values, text bodies as `.str`,
  parse failures as `.null`).
* `localStorage` is modelled as an association list of string keys and
  string values with real localStorage semantics (one value per key;
  `setItem` replaces, `removeItem` deletes, `getItem` misses give `none`).
* The network is an explicit environment (`Fetches`): the response to the
  original fetch, to the refresh exchange and to the retried fetch.
  A `none` response models a rejected `fetch` (network failure).
-/

namespace SkillStory

/-- JavaScript/JSON values as seen by the client after parsing.
Numbers are modelled as integers (all indices, ids and status-carrying
fields used by this client are integral). Object field lists are treated
as maps keyed on the first occurrence of a name. -/
inductive Json where
  | null
  | bool (b : Bool)
  | num (n : Int)
  | str (s : String)
  | arr (elems : List Json)
  | obj (fields : List (String × Json))

/-- JavaScript truthiness of a value (`null`/`false`/`0`/`""` are falsy;
arrays and objects are always truthy). -/
def Json.truthy : Json → Bool
  | .null => false
  | .bool b => b
  | .num n => n != 0
  | .str s => s ≠ ""
  | .arr _ => true
  | .obj _ => true

/-- JavaScript property read `v.k`: defined for objects, `none`
(undefined) otherwise. -/
def Json.get? : Json → String → Option Json
  | .obj fields, k => (fields.find? (fun p => p.1 == k)).map (fun p => p.2)
  | _, _ => none

/-- Property read collapsing `undefined` to `null` (both are falsy and
both are rejected by `??` and by loose `!= null`, which is all the client
ever does with these reads). -/
def fieldJs (v : Json) (k : String) : Json := (v.get? k).getD .null

mutual
/-- JavaScript `String(v)` coercion (arrays join their elements with
commas, objects render as `[object Object]`). -/
def jsString : Json → String
  | .null => "null"
  | .bool b => if b then "true" else "false"
  | .num n => toString n
  | .str s => s
  | .arr xs => jsStringList xs
  | .obj _ => "[object Object]"

/-- `Array.prototype.toString`: elements joined with commas. -/
def jsStringList : List Json → String
  | [] => ""
  | [x] => jsString x
  | x :: y :: xs => jsString x ++ "," ++ jsStringList (y :: xs)
end

/-- JavaScript `x + 1` on the episode-index state: numeric increment for
numbers; other cases follow JS coercion (`null + 1 = 1`, booleans
numerify, strings/arrays/objects concatenate after string coercion). -/
def jsAddOne : Json → Json
  | .num n => .num (n + 1)
  | .null => .num 1
  | .bool b => .num (if b then 2 else 1)
  | v => .str (jsString v ++ "1")

/-- Nullish normalisation used to model `a ?? b` and loose `x != null`:
`some .null` (a present `null`) and `none` (undefined) both collapse to
`none`. -/
def nullish : Option Json → Option Json
  | some .null => none
  | o => o

/-! ## Durable storage (`localStorage`) -/

/-- `localStorage` contents: one string value per string key. -/
abbrev LocalStorage := List (String × String)

/-- Access-token storage key (`client.js`). -/
def TOKEN_KEY : String := "skillstory.token"

/-- Refresh-token storage key (`client.js`). -/
def REFRESH_KEY : String := "skillstory.refresh_token"

/-- `localStorage.getItem`. -/
def lsGet (ls : LocalStorage) (k : String) : Option String :=
  (ls.find? (fun p => p.1 == k)).map (fun p => p.2)

/-- `localStorage.setItem`: replaces the value under `k`, or appends. -/
def lsSet (ls : LocalStorage) (k v : String) : LocalStorage :=
  if ls.any (fun p => p.1 == k) then
    ls.map (fun p => if p.1 == k then (p.1, v) else p)
  else
    ls ++ [(k, v)]

/-- `localStorage.removeItem`. -/
def lsRemove (ls : LocalStorage) (k : String) : LocalStorage :=
  ls.filter (fun p => !(p.1 == k))

/-- `getToken()`: bearer token from storage, `""` when absent. -/
def getToken (ls : LocalStorage) : String := (lsGet ls TOKEN_KEY).getD ""

/-- `setToken(token)`: stores the (string-coerced) token when truthy,
removes the key otherwise. The argument keeps its dynamic JS type since
`tryRefresh` passes the raw `access_token` field. -/
def setToken (ls : LocalStorage) (token : Json) : LocalStorage :=
  if token.truthy then lsSet ls TOKEN_KEY (jsString token)
  else lsRemove ls TOKEN_KEY

/-- `getRefreshToken()`. -/
def getRefreshToken (ls : LocalStorage) : String :=
  (lsGet ls REFRESH_KEY).getD ""

/-- `setRefreshToken(token)`. -/
def setRefreshToken (ls : LocalStorage) (token : Json) : LocalStorage :=
  if token.truthy then lsSet ls REFRESH_KEY (jsString token)
  else lsRemove ls REFRESH_KEY

/-! ## HTTP headers

The `Headers` web API is case-insensitive on header names; lookups and
updates below compare names through an ASCII lowercase map. -/

abbrev Headers := List (String × String)

/-- ASCII lowercase of a character. -/
def lcChar (c : Char) : Char :=
  if 65 ≤ c.toNat && c.toNat ≤ 90 then Char.ofNat (c.toNat + 32) else c

/-- ASCII lowercase of a header name. -/
def lcKey (s : String) : String := String.mk (s.data.map lcChar)

/-- Case-insensitive header-name equality. -/
def keyEq (a b : String) : Bool := lcKey a == lcKey b

/-- `headers.has(k)`. -/
def hHas (h : Headers) (k : String) : Bool := h.any (fun p => keyEq p.1 k)

/-- `headers.get(k)`. -/
def hGet (h : Headers) (k : String) : Option String :=
  (h.find? (fun p => keyEq p.1 k)).map (fun p => p.2)

/-- `headers.set(k, v)`: replaces the value under a matching name, or
appends a new entry. -/
def hSet (h : Headers) (k v : String) : Headers :=
  if hHas h k then h.map (fun p => if keyEq p.1 k then (p.1, v) else p)
  else h ++ [(k, v)]

/-- `new Headers(init)`: re-inserts the caller's entries in order (later
entries for the same name override earlier ones). -/
def hNorm (init : Headers) : Headers :=
  init.foldl (fun acc p => hSet acc p.1 p.2) []

/-! ## The network environment -/

/-- One HTTP response as the client sees it after its body-parsing step:
the status code and the parsed body (`Json` for JSON bodies, `.str` for
text bodies, `.null` for parse failures; the refresh exchange parses
failures to `.obj []`, the caller supplies that value directly). -/
structure HttpResponse where
  status : Nat
  data : Json

/-- `res.ok`: status in the 200–299 range. -/
def respOk (status : Nat) : Bool := 200 ≤ status && status < 300

/-- Responses the network would give to the (up to) three fetches a call
can issue: the original request, the refresh exchange, and the retried
request. `none` models a rejected `fetch` (network failure). -/
structure Fetches where
  first : Option HttpResponse
  refreshResp : Option HttpResponse
  retry : Option HttpResponse

/-- `(data && (data.detail || data.message)) || dflt`: server-provided
error message with a fallback. Property reads on non-objects are
undefined, hence falsy. -/
def errMsgOr (data : Json) (dflt : String) : String :=
  let inner := if (fieldJs data "detail").truthy then fieldJs data "detail"
               else fieldJs data "message"
  let v := if data.truthy then inner else data
  if v.truthy then jsString v else dflt

/-- The message of the error `request` throws for a non-ok response. -/
def errMessage (data : Json) (status : Nat) : String :=
  errMsgOr data ("Request failed with status " ++ toString status)

/-! ## `tryRefresh` -/

/-- The ways `tryRefresh` can throw. All of them are caught (and
discarded) by `request`; the payloads are kept for fidelity. -/
inductive RefreshError where
  | noToken
  | network
  | rejected (message : String) (status : Nat) (data : Json)

/-- `tryRefresh()`: refresh-token exchange. Fails when no refresh token
is stored, when the refresh fetch rejects, when the response is not ok,
or when the body carries no truthy `access_token`; on success stores the
new access token and returns it (with its dynamic JS type). -/
def tryRefresh (ls : LocalStorage) (resp : Option HttpResponse) :
    Except RefreshError (Json × LocalStorage) :=
  let rt := getRefreshToken ls
  if rt = "" then .error .noToken
  else
    match resp with
    | none => .error .network
    | some res =>
      let d := res.data
      if !respOk res.status || !(fieldJs d "access_token").truthy then
        .error (.rejected (errMsgOr d "Refresh failed") res.status d)
      else
        .ok (fieldJs d "access_token", setToken ls (fieldJs d "access_token"))

/-! ## The request executor -/

/-- The error `request` throws: a rejected fetch, or an HTTP error
carrying the message, the status, the parsed body and the `needsAuth`
flag (set exactly when the status is 401). -/
inductive ReqError where
  | network
  | http (message : String) (status : Nat) (data : Json) (needsAuth : Bool)

/-- The value `request` resolves with: `{data, status, ok}`. -/
structure ReqResult where
  data : Json
  status : Nat
  ok : Bool

/-- Observable outcome of one `request` invocation: the resolved value or
thrown error, the final storage, the headers attached to each main fetch
actually issued (original first, then the retry when one happens), and
the number of refresh exchanges attempted. -/
structure ReqOutcome where
  result : Except ReqError ReqResult
  ls : LocalStorage
  sent : List Headers
  refreshAttempts : Nat

/-- The error built at the bottom of `request` for a non-ok response. -/
def httpError (data : Json) (status : Nat) : ReqError :=
  .http (errMessage data status) status data (status == 401)

/-- Header step shared by the original and the retried call: default
content-type unless the body is `FormData` or one is already set. -/
def stepContentType (isFormData : Bool) (h : Headers) : Headers :=
  if !hHas h "Content-Type" && !isFormData then
    hSet h "Content-Type" "application/json"
  else h

/-- Header step shared by the original and the retried call: configured
demo-user header unless already set. -/
def stepDemoUser (demoUser : String) (h : Headers) : Headers :=
  if demoUser ≠ "" && !hHas h "X-Demo-User" then
    hSet h "X-Demo-User" demoUser
  else h

/-- Header construction of `request` (first attempt): content-type and
demo-user steps, then the stored bearer token unless the caller set
`Authorization`. -/
def buildHeaders (demoUser : String) (isFormData : Bool)
    (init : Headers) (token : String) : Headers :=
  let h := stepDemoUser demoUser (stepContentType isFormData (hNorm init))
  if token ≠ "" && !hHas h "Authorization" then
    hSet h "Authorization" ("Bearer " ++ token)
  else h

/-- Header construction for the retried call: the same content-type and
demo-user steps, then `Authorization` set unconditionally to the new
access token. -/
def buildRetryHeaders (demoUser : String) (isFormData : Bool)
    (init : Headers) (newAccess : String) : Headers :=
  hSet (stepDemoUser demoUser (stepContentType isFormData (hNorm init)))
    "Authorization" ("Bearer " ++ newAccess)

/-- `request(input, init, false)`: the executor with retrying disabled
(the shape of the recursive call). Builds headers, issues the fetch,
and resolves or throws; the 401-refresh branch is skipped because
`allowRetry` is false. -/
def requestNoRetry (demoUser : String) (isFormData : Bool)
    (init : Headers) (ls : LocalStorage) (firstResp : Option HttpResponse) :
    ReqOutcome :=
  let hdrs := buildHeaders demoUser isFormData init (getToken ls)
  match firstResp with
  | none => ⟨.error .network, ls, [hdrs], 0⟩
  | some res =>
    if respOk res.status then ⟨.ok ⟨res.data, res.status, true⟩, ls, [hdrs], 0⟩
    else ⟨.error (httpError res.data res.status), ls, [hdrs], 0⟩

/-- `request(input, init, allowRetry)`: the unified fetch wrapper.
On a 401 with retrying allowed and a stored refresh token it attempts
one refresh; on refresh success it re-issues the call once with
retrying disabled (`requestNoRetry`, using the rebuilt headers). The
`try { return await request(...) } catch` shape means a FAILED retry is
caught and the error thrown is built from the ORIGINAL 401 response. -/
def request (demoUser : String) (isFormData : Bool) (init : Headers)
    (ls : LocalStorage) (env : Fetches) : Bool → ReqOutcome
  | false => requestNoRetry demoUser isFormData init ls env.first
  | true =>
    let hdrs := buildHeaders demoUser isFormData init (getToken ls)
    match env.first with
    | none => ⟨.error .network, ls, [hdrs], 0⟩
    | some res =>
      if res.status == 401 && getRefreshToken ls ≠ "" then
        match tryRefresh ls env.refreshResp with
        | .ok (newAccess, ls1) =>
          if newAccess.truthy then
            let inner := requestNoRetry demoUser isFormData
              (buildRetryHeaders demoUser isFormData init (jsString newAccess))
              ls1 env.retry
            match inner.result with
            | .ok rr => ⟨.ok rr, inner.ls, hdrs :: inner.sent, 1⟩
            | .error _ =>
              ⟨.error (httpError res.data res.status), inner.ls,
                hdrs :: inner.sent, 1⟩
          else ⟨.error (httpError res.data res.status), ls1, [hdrs], 1⟩
        | .error _ =>
          ⟨.error (httpError res.data res.status), ls, [hdrs], 1⟩
      else
        if respOk res.status then
          ⟨.ok ⟨res.data, res.status, true⟩, ls, [hdrs], 0⟩
        else ⟨.error (httpError res.data res.status), ls, [hdrs], 0⟩

/-! ## The api object -/

/-- The built-in two-story demo dataset (`FALLBACK_STORIES`). -/
def FALLBACK_STORIES : Json :=
  .arr
    [ .obj
        [ ("id", .num 1),
          ("title", .str "First Day Leader"),
          ("description",
            .str "Navigate tough choices on your first day leading a new team.") ],
      .obj
        [ ("id", .num 2),
          ("title", .str "Negotiation Basics"),
          ("description",
            .str "Practice principled negotiation with stakeholders.") ] ]

/-- `api.listStories()`: a plain `GET` through `request`; any thrown
error is caught and replaced by the demo dataset wrapped as a successful
result. -/
def listStories (demoUser : String) (ls : LocalStorage) (env : Fetches) :
    ReqResult × LocalStorage :=
  let o := request demoUser false [] ls env true
  match o.result with
  | .ok r => (r, o.ls)
  | .error _ => (⟨FALLBACK_STORIES, 200, true⟩, o.ls)

/-- Storage effect of a SUCCESSFUL `api.login` response body `d`:
`if (res?.data?.access_token) setToken(...)`, then the same for the
refresh token. -/
def loginStore (ls : LocalStorage) (d : Json) : LocalStorage :=
  let ls := if (fieldJs d "access_token").truthy then
    setToken ls (fieldJs d "access_token") else ls
  if (fieldJs d "refresh_token").truthy then
    setRefreshToken ls (fieldJs d "refresh_token") else ls

/-- Storage effect of a successful `api.register` response (identical to
`api.login`). -/
def registerStore (ls : LocalStorage) (d : Json) : LocalStorage :=
  let ls := if (fieldJs d "access_token").truthy then
    setToken ls (fieldJs d "access_token") else ls
  if (fieldJs d "refresh_token").truthy then
    setRefreshToken ls (fieldJs d "refresh_token") else ls

/-- Storage effect of a successful `api.refresh` response: only the
access token is (conditionally) stored. -/
def refreshStore (ls : LocalStorage) (d : Json) : LocalStorage :=
  if (fieldJs d "access_token").truthy then
    setToken ls (fieldJs d "access_token") else ls

/-! ## The auth context (`AuthContext.js`) -/

/-- Auth-relevant client state: durable storage plus the React state
slices (`accessToken`, `refreshToken`, `user`). -/
structure AuthState where
  ls : LocalStorage
  accessToken : String
  refreshToken : String
  user : Option Json

/-- `clearTokens()`: removes both storage keys and blanks both React
token slices. -/
def clearTokens (st : AuthState) : AuthState :=
  { st with
    ls := lsRemove (lsRemove st.ls TOKEN_KEY) REFRESH_KEY,
    accessToken := "",
    refreshToken := "" }

/-- `logout()`: `clearTokens()` then `setUser(null)`. -/
def logout (st : AuthState) : AuthState :=
  let st := clearTokens st
  { st with user := none }

/-! ## Session-event sequences (for the storage invariant) -/

/-- A successful session operation: the auth calls carry the parsed
response body, `logout` carries nothing. -/
inductive AuthEvent where
  | login (d : Json)
  | register (d : Json)
  | refresh (d : Json)
  | logout

/-- Storage effect of one successful session operation (the api-level
stores for the auth calls, `clearTokens`'s storage removals for
logout). -/
def applyAuthEvent (ls : LocalStorage) : AuthEvent → LocalStorage
  | .login d => loginStore ls d
  | .register d => registerStore ls d
  | .refresh d => refreshStore ls d
  | .logout => lsRemove (lsRemove ls TOKEN_KEY) REFRESH_KEY

/-- Storage after a sequence of successful session operations. -/
def runAuthEvents (ls : LocalStorage) (evs : List AuthEvent) : LocalStorage :=
  evs.foldl applyAuthEvent ls

/-- Specification-side tracking: the access token of the most recent
successful login/register/refresh (cleared by logout), starting from a
given stored value. -/
def mostRecentAuthToken (cur : Option String) : List AuthEvent → Option String
  | [] => cur
  | .login d :: rest => mostRecentAuthToken (some (jsString (fieldJs d "access_token"))) rest
  | .register d :: rest => mostRecentAuthToken (some (jsString (fieldJs d "access_token"))) rest
  | .refresh d :: rest => mostRecentAuthToken (some (jsString (fieldJs d "access_token"))) rest
  | .logout :: rest => mostRecentAuthToken none rest

/-- An auth event whose response body carries a nonempty string access
token (what a successful login/register/refresh response carries). -/
def carriesAccessToken : AuthEvent → Prop
  | .login d => ∃ t, fieldJs d "access_token" = .str t ∧ t ≠ ""
  | .register d => ∃ t, fieldJs d "access_token" = .str t ∧ t ≠ ""
  | .refresh d => ∃ t, fieldJs d "access_token" = .str t ∧ t ≠ ""
  | .logout => True

/-! ## Optimistic creation handlers (`AuthoringDashboard.jsx`) -/

/-- JS strict `it.id === tmpId` where `tmpId` is a string: true exactly
for an `id` property holding that same string. -/
def idIsTmp (it : Json) (tmpId : String) : Bool :=
  match it.get? "id" with
  | some (.str s) => s == tmpId
  | _ => false

/-- Object-literal field update: overwrite in place or append. -/
def objSet (fields : List (String × Json)) (k : String) (v : Json) :
    List (String × Json) :=
  if fields.any (fun p => p.1 == k) then
    fields.map (fun p => if p.1 == k then (p.1, v) else p)
  else fields ++ [(k, v)]

/-- `{ id: tmpId, ...payload }`: the optimistic placeholder (object
payloads spread their fields, overriding `id` if they carry one; the
authoring payloads are always objects). -/
def withTmpId (tmpId : String) (payload : Json) : Json :=
  match payload with
  | .obj fs => .obj (fs.foldl (fun acc p => objSet acc p.1 p.2) [("id", .str tmpId)])
  | _ => .obj [("id", .str tmpId)]

/-- Story list after `StoryForm onSubmit` when the create call FAILS:
the placeholder is prepended optimistically, then the catch filters out
entries whose `id` strictly equals the temporary id. -/
def storyCreateFailed (pre : List Json) (tmpId : String) (payload : Json) :
    List Json :=
  ((withTmpId tmpId payload) :: pre).filter (fun it => !(idIsTmp it tmpId))

/-- Choice list after `ChoiceForm onSubmit` when the create call fails
(placeholder appended, then filtered out). -/
def choiceCreateFailed (pre : List Json) (tmpId : String) (payload : Json) :
    List Json :=
  (pre ++ [withTmpId tmpId payload]).filter (fun it => !(idIsTmp it tmpId))

/-- Quiz-question list after `QuizQuestionForm onSubmit` when the create
call fails (same append-then-filter shape as choices). -/
def quizCreateFailed (pre : List Json) (tmpId : String) (payload : Json) :
    List Json :=
  (pre ++ [withTmpId tmpId payload]).filter (fun it => !(idIsTmp it tmpId))

/-- Sort key of the optimistic episode insert: `(ep.index ?? 0)`.
Non-numeric indices are out of scope (the episode form validates and
sends integers); present-but-null and missing indices default to 0. -/
def epSortKey (ep : Json) : Int :=
  match nullish (ep.get? "index") with
  | some (.num n) => n
  | _ => 0

/-- `next.sort((a, b) => (a.index ?? 0) - (b.index ?? 0))` on the
episode list (a stable ascending sort by the index key). -/
def sortEpisodes (eps : List Json) : List Json :=
  eps.mergeSort (fun a b => epSortKey a ≤ epSortKey b)

/-- Episode list after `EpisodeForm onSubmit` when the create call
FAILS: the payload copy is pushed and the list sorted; the catch then
REFETCHES the authoritative list — on refetch success the fetched list
replaces local state, but when the refetch itself fails
`refreshEpisodes` only records an error message and the optimistic entry
stays. -/
def episodeCreateFailed (pre : List Json) (payload : Json)
    (refetch : Option (List Json)) : List Json :=
  let afterOptimistic := sortEpisodes (pre ++ [payload])
  match refetch with
  | some server => server
  | none => afterOptimistic

/-! ## Choice submission (`StoryBrowser.js` onChoose, optimistic
advance) -/

/-- Envelope unwrapping `result && (result.data || result)`. -/
def choosePayload (result : Json) : Json :=
  if result.truthy then
    if (fieldJs result "data").truthy then fieldJs result "data" else result
  else result

/-- `payload && (payload.next_episode_index ?? payload.next_ep_index)`
followed by the `serverNext != null` test: `none` means the local
optimistic guess stays. -/
def chooseServerNext (payload : Json) : Option Json :=
  if payload.truthy then
    match nullish (payload.get? "next_episode_index") with
    | some v => some v
    | none => nullish (payload.get? "next_ep_index")
  else nullish (some payload)

/-- The successive values `onChoose` assigns to the episode-index state:
the optimistic `prevIndex + 1` first, then either the converged value
(server-provided when present, the optimistic guess otherwise) or the
rollback to `prevIndex` when `submit` threw (`outcome = none`). -/
def onChooseIndexTrace (prevIndex : Json) (outcome : Option Json) :
    List Json :=
  let optimisticNext := jsAddOne prevIndex
  optimisticNext ::
    (match outcome with
     | none => [prevIndex]
     | some result =>
       [match chooseServerNext (choosePayload result) with
        | some v => v
        | none => optimisticNext])

/-- The episode-index state once `onChoose` has finished. -/
def onChooseFinalIndex (prevIndex : Json) (outcome : Option Json) : Json :=
  (onChooseIndexTrace prevIndex outcome).getLastD prevIndex

/-- Length of a JSON array (0 for non-arrays); used to state the
two-item shape of the demo dataset. -/
def jsonArrayLength : Json → Nat
  | .arr xs => xs.length
  | _ => 0

/-- Number of entries stored under a key (localStorage semantics keep it
at most 1; stated and proved below rather than assumed). -/
def storedCount (ls : LocalStorage) (k : String) : Nat :=
  (ls.filter (fun p => p.1 == k)).length

/-- Key lists without duplicates: the well-formedness real
`localStorage` maintains. -/
def NodupKeys (ls : LocalStorage) : Prop := (ls.map Prod.fst).Nodup

/-! ## Concrete scenarios used by the witnesses and counterexamples -/

/-- Storage holding only a refresh token `R1`. -/
def lsR1 : LocalStorage := [(REFRESH_KEY, "R1")]

/-- Storage after a login that stored tokens `T1`/`R1`. -/
def lsT1R1 : LocalStorage := [(TOKEN_KEY, "T1"), (REFRESH_KEY, "R1")]

/-- Network for the double-401 scenario: the original call and the retry
both come back 401 with distinguishable bodies, the refresh succeeds. -/
def envDouble401 : Fetches :=
  { first := some ⟨401, .obj [("detail", .str "first-body")]⟩,
    refreshResp := some ⟨200, .obj [("access_token", .str "T2")]⟩,
    retry := some ⟨401, .obj [("detail", .str "second-body")]⟩ }

/-- Network for the successful refresh-retry scenario of the spec:
401, refresh yields `T2`, retry succeeds. -/
def envRefreshOk : Fetches :=
  { first := some ⟨401, .obj [("detail", .str "Not authenticated")]⟩,
    refreshResp := some ⟨200, .obj [("access_token", .str "T2")]⟩,
    retry := some ⟨200, .obj [("ok", .bool true)]⟩ }

/-- Network where the refresh exchange returns 200 with an empty body. -/
def envRefreshEmptyBody : Fetches :=
  { first := some ⟨401, .obj [("detail", .str "Not authenticated")]⟩,
    refreshResp := some ⟨200, .obj [("token_type", .str "bearer")]⟩,
    retry := some ⟨200, .obj []⟩ }

/-- Network where every fetch rejects (total outage). -/
def envOutage : Fetches := { first := none, refreshResp := none, retry := none }

/-- A concrete episode-create payload (as the validated episode form
sends it). -/
def epDemoPayload : Json :=
  .obj [("index", .num 0), ("content", .str "intro"), ("is_quiz", .bool false)]

/-- A concrete session history: login (`T1`/`R1`), refresh (`T2`),
logout, then a second login (`T3`/`R3`). -/
def demoAuthEvents : List AuthEvent :=
  [ .login (.obj [("access_token", .str "T1"), ("refresh_token", .str "R1")]),
    .refresh (.obj [("access_token", .str "T2")]),
    .logout,
    .login (.obj [("access_token", .str "T3"), ("refresh_token", .str "R3")]) ]

/-! # Lemmas

## Association-list machinery

`lsSet`/`hSet` and `objSet` all share the shape "replace the value under
every matching key, or append"; the lemmas below are stated for that
shape, with the key matcher abstracted (exact equality for storage and
object literals, case-insensitive equality for headers). -/

section AssocLemmas

variable {α : Type}

/-- `find?` through a value-replacing map, when the query matcher agrees
with the replacement matcher on every key. -/
theorem find?_replace_agree (l : List (String × α)) (pk pq : String → Bool)
    (v : α) (hag : ∀ s, pq s = pk s) :
    (l.map (fun p => if pk p.1 then (p.1, v) else p)).find?
        (fun p => pq p.1)
      = (l.find? (fun p => pq p.1)).map (fun p => (p.1, v)) := by
  rw [List.find?_map]
  have hp : ((fun p : String × α => pq p.1) ∘
      (fun p : String × α => if pk p.1 then (p.1, v) else p))
      = fun p : String × α => pq p.1 := by
    funext p
    by_cases h : pk p.1 = true <;> simp [h]
  rw [hp]
  induction l with
  | nil => rfl
  | cons p t ih =>
    by_cases h : pq p.1 = true
    · have hk : pk p.1 = true := (hag p.1) ▸ h
      simp [List.find?_cons, h, hk]
    · have hq : pq p.1 = false := by simpa using h
      simp only [List.find?_cons, hq]
      exact ih

/-- `find?` through a value-replacing map, when the query matcher and the
replacement matcher never both hold. -/
theorem find?_replace_disjoint (l : List (String × α)) (pk pq : String → Bool)
    (v : α) (hdis : ∀ s, pq s = true → pk s = false) :
    (l.map (fun p => if pk p.1 then (p.1, v) else p)).find?
        (fun p => pq p.1)
      = l.find? (fun p => pq p.1) := by
  rw [List.find?_map]
  have hp : ((fun p : String × α => pq p.1) ∘
      (fun p : String × α => if pk p.1 then (p.1, v) else p))
      = fun p : String × α => pq p.1 := by
    funext p
    by_cases h : pk p.1 = true <;> simp [h]
  rw [hp]
  induction l with
  | nil => rfl
  | cons p t ih =>
    by_cases h : pq p.1 = true
    · simp [List.find?_cons, h, hdis p.1 h]
    · simp only [List.find?_cons, show pq p.1 = false by simpa using h]
      exact ih

end AssocLemmas

/-! ## Storage lemmas -/

theorem lsGet_lsSet (ls : LocalStorage) (k v k' : String) :
    lsGet (lsSet ls k v) k' = if k' = k then some v else lsGet ls k' := by
  unfold lsSet lsGet
  by_cases hk : k' = k
  · subst hk
    rw [if_pos rfl]
    split
    · rename_i hany
      rw [find?_replace_agree ls (fun s => s == k') (fun s => s == k') v
        (fun _ => rfl), Option.map_map]
      have hsome : (ls.find? (fun p => p.1 == k')).isSome :=
        List.find?_isSome.mpr (List.any_eq_true.mp hany)
      rcases Option.isSome_iff_exists.mp hsome with ⟨p0, hp0⟩
      rw [hp0]
      rfl
    · rename_i hany
      rw [List.find?_append]
      have h1 : ls.find? (fun p => p.1 == k') = none := by
        rw [List.find?_eq_none]
        intro p hp hc
        exact hany (List.any_eq_true.mpr ⟨p, hp, hc⟩)
      have h2 : List.find? (fun p : String × String => p.1 == k') [(k', v)]
          = some (k', v) := by
        simp [List.find?_cons]
      rw [h1, h2]
      rfl
  · rw [if_neg hk]
    split
    · rw [find?_replace_disjoint ls (fun s => s == k) (fun s => s == k') v]
      intro s hs
      have hs' : s = k' := by simpa using hs
      subst hs'
      simpa using hk
    · rw [List.find?_append]
      have h2 : List.find? (fun p : String × String => p.1 == k') [(k, v)]
          = none := by
        have hkk : (k == k') = false := by
          simp only [beq_eq_false_iff_ne, ne_eq]
          exact fun hc => hk hc.symm
        simp [List.find?_cons, hkk]
      rw [h2, Option.or_none]

theorem lsGet_lsRemove (ls : LocalStorage) (k k' : String) :
    lsGet (lsRemove ls k) k' = if k' = k then none else lsGet ls k' := by
  unfold lsRemove lsGet
  by_cases hk : k' = k
  · subst hk
    rw [if_pos rfl]
    have hnone : (ls.filter (fun p => !(p.1 == k'))).find? (fun p => p.1 == k')
        = none := by
      rw [List.find?_eq_none]
      intro p hp
      have h2 := (List.mem_filter.mp hp).2
      simpa using h2
    rw [hnone]
    rfl
  · rw [if_neg hk]
    induction ls with
    | nil => rfl
    | cons p t ih =>
      by_cases h : (p.1 == k) = true
      · have h' : p.1 = k := by simpa using h
        have hq : (p.1 == k') = false := by
          simp only [beq_eq_false_iff_ne, ne_eq, h']
          exact fun hc => hk hc.symm
        rw [List.filter_cons, if_neg (by simp [h])]
        rw [show List.find? (fun p => p.1 == k') (p :: t)
            = List.find? (fun p => p.1 == k') t by
          simp [List.find?_cons, hq]]
        exact ih
      · rw [List.filter_cons, if_pos (by simp [h])]
        by_cases h2 : (p.1 == k') = true
        · simp [List.find?_cons, h2]
        · have h2' : (p.1 == k') = false := by simpa using h2
          simp only [List.find?_cons, h2']
          exact ih

/-! ## Header lemmas -/

theorem keyEq_iff (a b : String) : keyEq a b = true ↔ lcKey a = lcKey b := by
  unfold keyEq
  exact beq_iff_eq

theorem keyEq_refl (a : String) : keyEq a a = true := (keyEq_iff a a).mpr rfl

theorem keyEq_symm (a b : String) : keyEq a b = keyEq b a := by
  by_cases h : lcKey a = lcKey b
  · rw [(keyEq_iff a b).mpr h, (keyEq_iff b a).mpr h.symm]
  · have h1 : keyEq a b = false := by
      by_contra hc
      exact h ((keyEq_iff a b).mp (by simpa using hc))
    have h2 : keyEq b a = false := by
      by_contra hc
      exact h ((keyEq_iff b a).mp (by simpa using hc)).symm
    rw [h1, h2]

theorem hGet_hSet (h : Headers) (k v k' : String) :
    hGet (hSet h k v) k' = if keyEq k' k then some v else hGet h k' := by
  unfold hSet hGet
  by_cases hk : keyEq k' k = true
  · rw [if_pos hk]
    have hag : ∀ s, keyEq s k' = keyEq s k := by
      intro s
      have hkk : lcKey k' = lcKey k := (keyEq_iff k' k).mp hk
      unfold keyEq
      rw [hkk]
    split
    · rename_i hany
      rw [find?_replace_agree h (fun s => keyEq s k) (fun s => keyEq s k') v
        hag, Option.map_map]
      have hany' : h.any (fun p => keyEq p.1 k') = true := by
        rcases List.any_eq_true.mp hany with ⟨p, hp, hpk⟩
        exact List.any_eq_true.mpr ⟨p, hp, by rw [hag]; exact hpk⟩
      have hsome : (h.find? (fun p => keyEq p.1 k')).isSome :=
        List.find?_isSome.mpr (List.any_eq_true.mp hany')
      rcases Option.isSome_iff_exists.mp hsome with ⟨p0, hp0⟩
      rw [hp0]
      rfl
    · rename_i hany
      rw [List.find?_append]
      have h1 : h.find? (fun p => keyEq p.1 k') = none := by
        rw [List.find?_eq_none]
        intro p hp hc
        exact hany (List.any_eq_true.mpr ⟨p, hp, by rw [← hag]; exact hc⟩)
      have h2 : List.find? (fun p : String × String => keyEq p.1 k') [(k, v)]
          = some (k, v) := by
        have : keyEq k k' = true := keyEq_symm k k' ▸ hk
        simp [List.find?_cons, this]
      rw [h1, h2]
      rfl
  · rw [if_neg hk]
    have hk' : keyEq k' k = false := by simpa using hk
    split
    · rw [find?_replace_disjoint h (fun s => keyEq s k) (fun s => keyEq s k') v]
      intro s hs
      by_contra hc
      have hsk : lcKey s = lcKey k := (keyEq_iff s k).mp (by simpa using hc)
      have hsk' : lcKey s = lcKey k' := (keyEq_iff s k').mp hs
      exact hk ((keyEq_iff k' k).mpr (hsk'.symm.trans hsk))
    · rw [List.find?_append]
      have h2 : List.find? (fun p : String × String => keyEq p.1 k') [(k, v)]
          = none := by
        have : keyEq k k' = false := keyEq_symm k k' ▸ hk'
        simp [List.find?_cons, this]
      rw [h2, Option.or_none]

theorem hHas_hSet (h : Headers) (k v k' : String) :
    hHas (hSet h k v) k' = (keyEq k' k || hHas h k') := by
  unfold hSet hHas
  split
  · rename_i hany
    rw [List.any_map]
    have hp : ((fun p : String × String => keyEq p.1 k') ∘
        (fun p : String × String => if keyEq p.1 k then (p.1, v) else p))
        = fun p : String × String => keyEq p.1 k' := by
      funext p
      by_cases hc : keyEq p.1 k = true <;> simp [hc]
    rw [hp]
    by_cases hk : keyEq k' k = true
    · have hag : ∀ s, keyEq s k' = keyEq s k := by
        intro s
        unfold keyEq
        rw [(keyEq_iff k' k).mp hk]
      have : h.any (fun p => keyEq p.1 k') = true := by
        rcases List.any_eq_true.mp hany with ⟨p, hp2, hpk⟩
        exact List.any_eq_true.mpr ⟨p, hp2, by rw [hag]; exact hpk⟩
      rw [this, hk]
      rfl
    · rw [show keyEq k' k = false by simpa using hk, Bool.false_or]
  · rw [List.any_append]
    have : List.any [(k, v)] (fun p : String × String => keyEq p.1 k')
        = keyEq k' k := by
      simp [List.any_cons, keyEq_symm k k']
    rw [this, Bool.or_comm]

theorem hHas_foldl (l : Headers) : ∀ (acc : Headers) (k : String),
    hHas (l.foldl (fun a p => hSet a p.1 p.2) acc) k
      = (hHas acc k || hHas l k) := by
  induction l with
  | nil =>
    intro acc k
    simp [hHas]
  | cons p t ih =>
    intro acc k
    rw [List.foldl_cons, ih, hHas_hSet]
    have : hHas (p :: t) k = (keyEq p.1 k || hHas t k) := by
      simp [hHas, List.any_cons]
    rw [this, keyEq_symm k p.1]
    cases keyEq p.1 k <;> cases hHas acc k <;> cases hHas t k <;> rfl

theorem hHas_hNorm (h : Headers) (k : String) : hHas (hNorm h) k = hHas h k := by
  unfold hNorm
  rw [hHas_foldl]
  simp [hHas]

/-- Headers whose entry names are pairwise distinct up to case; every
header list `Headers()` actually builds has this shape. -/
def KeysUnique (h : Headers) : Prop :=
  h.Pairwise (fun p q => keyEq p.1 q.1 = false)

theorem ku_nil : KeysUnique [] := List.Pairwise.nil

theorem ku_hSet (h : Headers) (k v : String) (hku : KeysUnique h) :
    KeysUnique (hSet h k v) := by
  unfold hSet
  split
  · refine List.pairwise_map.mpr ?_
    refine hku.imp ?_
    intro p q hpq
    by_cases h1 : keyEq p.1 k = true <;> by_cases h2 : keyEq q.1 k = true <;>
      simp [h1, h2, hpq]
  · rename_i hany
    unfold KeysUnique
    rw [List.pairwise_append]
    refine ⟨hku, List.pairwise_singleton _ _, ?_⟩
    intro p hp q hq
    rw [List.mem_singleton] at hq
    subst hq
    by_contra hc
    exact hany (List.any_eq_true.mpr ⟨p, hp, by simpa using hc⟩)

theorem ku_foldl (l : Headers) : ∀ acc : Headers, KeysUnique acc →
    KeysUnique (l.foldl (fun a p => hSet a p.1 p.2) acc) := by
  induction l with
  | nil => intro acc h; exact h
  | cons p t ih =>
    intro acc h
    rw [List.foldl_cons]
    exact ih _ (ku_hSet _ _ _ h)

theorem ku_hNorm (h : Headers) : KeysUnique (hNorm h) := ku_foldl h [] ku_nil

theorem foldl_hSet_of_fresh (l : Headers) : ∀ acc : Headers,
    KeysUnique l → (∀ p ∈ l, ∀ q ∈ acc, keyEq q.1 p.1 = false) →
    l.foldl (fun a p => hSet a p.1 p.2) acc = acc ++ l := by
  induction l with
  | nil => intro acc _ _; simp
  | cons p t ih =>
    intro acc hku hfresh
    rw [List.foldl_cons]
    have hstep : hSet acc p.1 p.2 = acc ++ [p] := by
      unfold hSet
      have hcond : ¬ hHas acc p.1 = true := by
        intro hc
        rcases List.any_eq_true.mp hc with ⟨q, hq, hqk⟩
        exact absurd hqk (by simp [hfresh p (List.mem_cons_self p t) q hq])
      rw [if_neg hcond, Prod.mk.eta]
    rw [hstep, ih (acc ++ [p]) (List.pairwise_cons.mp hku).2 ?_]
    · rw [List.append_assoc, List.singleton_append]
    · intro p' hp' q hq
      rcases List.mem_append.mp hq with hq1 | hq2
      · exact hfresh p' (List.mem_cons_of_mem _ hp') q hq1
      · rw [List.mem_singleton] at hq2
        subst hq2
        exact (List.pairwise_cons.mp hku).1 p' hp'

theorem hNorm_of_ku (h : Headers) (hku : KeysUnique h) : hNorm h = h := by
  unfold hNorm
  rw [foldl_hSet_of_fresh h [] hku (by intro p _ q hq; cases hq)]
  rfl

/-! ## Key-uniqueness of storage -/

theorem nodupKeys_lsSet (ls : LocalStorage) (k v : String)
    (h : NodupKeys ls) : NodupKeys (lsSet ls k v) := by
  unfold lsSet
  split
  · unfold NodupKeys
    have hkeys : (ls.map (fun p => if p.1 == k then (p.1, v) else p)).map
        Prod.fst = ls.map Prod.fst := by
      rw [List.map_map]
      refine List.map_congr_left ?_
      intro p _
      simp only [Function.comp_apply]
      by_cases hc : (p.1 == k) = true
      · rw [if_pos hc]
      · rw [if_neg hc]
    rw [hkeys]
    exact h
  · rename_i hany
    unfold NodupKeys
    rw [List.map_append, List.nodup_append]
    refine ⟨h, List.nodup_singleton _, ?_⟩
    intro a ha hb
    rw [List.map_singleton, List.mem_singleton] at hb
    subst hb
    rcases List.mem_map.mp ha with ⟨p, hp, hpa⟩
    exact hany (List.any_eq_true.mpr
      ⟨p, hp, by rw [hpa]; exact beq_self_eq_true a⟩)

theorem nodupKeys_lsRemove (ls : LocalStorage) (k : String)
    (h : NodupKeys ls) : NodupKeys (lsRemove ls k) :=
  List.Nodup.sublist (List.Sublist.map Prod.fst (List.filter_sublist ls)) h

theorem storedCount_le_one (ls : LocalStorage) (k : String)
    (h : NodupKeys ls) : storedCount ls k ≤ 1 := by
  unfold storedCount
  induction ls with
  | nil => simp
  | cons p t ih =>
    rcases List.nodup_cons.mp h with ⟨hnotmem, hnd⟩
    by_cases hc : (p.1 == k) = true
    · have hk : p.1 = k := by simpa using hc
      have hnil : t.filter (fun q => q.1 == k) = [] := by
        rw [List.filter_eq_nil_iff]
        intro q hq hqk
        exact hnotmem (hk ▸ (by simpa using hqk : q.1 = k) ▸
          List.mem_map.mpr ⟨q, hq, rfl⟩)
      rw [List.filter_cons, if_pos hc, hnil]
      simp
    · rw [List.filter_cons, if_neg (by simpa using hc)]
      exact ih hnd

theorem lsRemove_pair_idem (ls : LocalStorage) :
    lsRemove (lsRemove (lsRemove (lsRemove ls TOKEN_KEY) REFRESH_KEY)
        TOKEN_KEY) REFRESH_KEY
      = lsRemove (lsRemove ls TOKEN_KEY) REFRESH_KEY := by
  unfold lsRemove
  rw [List.filter_filter, List.filter_filter, List.filter_filter,
    List.filter_filter]
  refine List.filter_congr ?_
  intro x _
  cases h1 : x.1 == TOKEN_KEY <;> cases h2 : x.1 == REFRESH_KEY <;>
    simp [h1, h2]

/-! # Claim theorems -/

/-- C8: `logout` clears both tokens from durable storage and the
in-memory identity, and is idempotent: a second `logout` leaves the
state of the first unchanged. -/
theorem c8_logout_clears_and_idempotent (st : AuthState) :
    logout (logout st) = logout st ∧
    lsGet (logout st).ls TOKEN_KEY = none ∧
    lsGet (logout st).ls REFRESH_KEY = none ∧
    (logout st).accessToken = "" ∧
    (logout st).refreshToken = "" ∧
    (logout st).user = none := by
  refine ⟨?_, ?_, ?_, rfl, rfl, rfl⟩
  · cases st
    simp only [logout, clearTokens]
    rw [lsRemove_pair_idem]
  · show lsGet (lsRemove (lsRemove st.ls TOKEN_KEY) REFRESH_KEY) TOKEN_KEY
      = none
    rw [lsGet_lsRemove, if_neg (by decide), lsGet_lsRemove, if_pos rfl]
  · show lsGet (lsRemove (lsRemove st.ls TOKEN_KEY) REFRESH_KEY) REFRESH_KEY
      = none
    rw [lsGet_lsRemove, if_pos rfl]

/-- C2: a 401 response with no stored refresh token fails immediately:
no refresh exchange is attempted, storage is untouched, only the one
fetch is issued, and the thrown error carries the status, the parsed
body and the `needsAuth` flag. -/
theorem c2_unauthorized_without_refresh_token (demoUser : String)
    (isFormData : Bool) (init : Headers) (ls : LocalStorage) (env : Fetches)
    (res : HttpResponse) (h1 : env.first = some res) (h2 : res.status = 401)
    (h3 : getRefreshToken ls = "") :
    request demoUser isFormData init ls env true
      = ⟨.error (.http (errMessage res.data 401) 401 res.data true), ls,
          [buildHeaders demoUser isFormData init (getToken ls)], 0⟩ := by
  simp only [request, h1]
  rw [h2]
  simp only [ne_eq, h3, not_true_eq_false, decide_False, Bool.and_false,
    Bool.false_eq_true, if_false]
  rw [if_neg (by decide : ¬ respOk 401 = true)]
  unfold httpError
  rfl

/-- C10: a refresh exchange whose response is HTTP-ok but whose body has
no `access_token` field counts as a refresh failure: storage is left
unchanged, no retry is issued (one fetch, one refresh attempt), and the
original 401 error is surfaced. -/
theorem c10_refresh_without_access_token (demoUser : String)
    (isFormData : Bool) (init : Headers) (ls : LocalStorage) (env : Fetches)
    (res rr : HttpResponse) (h1 : env.first = some res)
    (h2 : res.status = 401) (h3 : getRefreshToken ls ≠ "")
    (h4 : env.refreshResp = some rr) (h5 : respOk rr.status = true)
    (h6 : rr.data.get? "access_token" = none) :
    request demoUser isFormData init ls env true
      = ⟨.error (.http (errMessage res.data 401) 401 res.data true), ls,
          [buildHeaders demoUser isFormData init (getToken ls)], 1⟩ := by
  simp only [request, h1]
  rw [h2]
  have hg : ((401 : Nat) == 401 && decide (getRefreshToken ls ≠ "")) = true := by
    simp [h3]
  rw [hg]
  have hfield : fieldJs rr.data "access_token" = .null := by
    unfold fieldJs
    rw [h6]
    rfl
  have htr : tryRefresh ls env.refreshResp
      = .error (.rejected (errMsgOr rr.data "Refresh failed") rr.status
          rr.data) := by
    simp only [tryRefresh]
    rw [if_neg h3]
    simp only [h4]
    rw [if_pos (by rw [h5, hfield]; rfl)]
  simp only [if_true, htr]
  rfl

/-- The 401-refresh-success path of `request`, fully evaluated: one
refresh, one retry with rebuilt headers, the new token persisted; the
retry's value is returned on success and the error built from the
ORIGINAL 401 response is thrown otherwise. Shared backbone for the
claims about this path. -/
theorem request_refresh_success_path (demoUser : String) (isFormData : Bool)
    (init : Headers) (ls : LocalStorage) (env : Fetches)
    (res rr : HttpResponse) (tok : Json) (h1 : env.first = some res)
    (h2 : res.status = 401) (h3 : getRefreshToken ls ≠ "")
    (h4 : env.refreshResp = some rr) (h5 : respOk rr.status = true)
    (h6 : fieldJs rr.data "access_token" = tok) (h7 : tok.truthy = true) :
    request demoUser isFormData init ls env true
      = ⟨(match env.retry with
          | none => .error (.http (errMessage res.data 401) 401 res.data true)
          | some r2 =>
            if respOk r2.status then .ok ⟨r2.data, r2.status, true⟩
            else .error (.http (errMessage res.data 401) 401 res.data true)),
          setToken ls tok,
          [buildHeaders demoUser isFormData init (getToken ls),
           buildHeaders demoUser isFormData
             (buildRetryHeaders demoUser isFormData init (jsString tok))
             (getToken (setToken ls tok))],
          1⟩ := by
  simp only [request, h1]
  rw [h2]
  have hg : ((401 : Nat) == 401 && decide (getRefreshToken ls ≠ "")) = true := by
    simp [h3]
  rw [hg]
  have htr : tryRefresh ls env.refreshResp = .ok (tok, setToken ls tok) := by
    simp only [tryRefresh]
    rw [if_neg h3]
    simp only [h4]
    rw [if_neg (by rw [h5, h6, h7]; simp)]
    rw [h6]
  simp only [if_true, htr, h7]
  cases henv : env.retry with
  | none => simp [requestNoRetry, henv, httpError]
  | some r2 =>
    simp only [requestNoRetry, henv]
    by_cases hok : respOk r2.status = true
    · simp [hok, httpError]
    · have hok' : respOk r2.status = false := by simpa using hok
      simp [hok', httpError]

/-- C1 (amended): on a 401 with retrying allowed, a stored refresh token
and a successful refresh, the executor re-issues the call exactly once
(two main fetches, one refresh attempt); a SUCCESSFUL retry's outcome is
returned, but a failed retry (second 401 included) is caught and the
failure surfaced to the caller is the error built from the ORIGINAL 401
response's status and body — not the retry's outcome — and no second
refresh or retry occurs. -/
theorem c1_refresh_retry_once (demoUser : String) (isFormData : Bool)
    (init : Headers) (ls : LocalStorage) (env : Fetches)
    (res rr : HttpResponse) (tok : Json) (h1 : env.first = some res)
    (h2 : res.status = 401) (h3 : getRefreshToken ls ≠ "")
    (h4 : env.refreshResp = some rr) (h5 : respOk rr.status = true)
    (h6 : fieldJs rr.data "access_token" = tok) (h7 : tok.truthy = true) :
    (request demoUser isFormData init ls env true).sent.length = 2 ∧
    (request demoUser isFormData init ls env true).refreshAttempts = 1 ∧
    (request demoUser isFormData init ls env true).result
      = (match env.retry with
         | none => .error (.http (errMessage res.data 401) 401 res.data true)
         | some r2 =>
           if respOk r2.status then .ok ⟨r2.data, r2.status, true⟩
           else .error (.http (errMessage res.data 401) 401 res.data true)) := by
  rw [request_refresh_success_path demoUser isFormData init ls env res rr tok
    h1 h2 h3 h4 h5 h6 h7]
  exact ⟨rfl, rfl, rfl⟩

/-- C1 (counterexample to the claim as stated): with refresh token `R1`
stored, a 401 whose body says `first-body`, a successful refresh and a
retry that fails 401 with body `second-body`, the executor does NOT
return the retry's outcome: it throws the error carrying the FIRST
response's body. -/
theorem c1_counterexample :
    (request "" false [] lsR1 envDouble401 true).result
      = .error (.http "first-body" 401
          (.obj [("detail", .str "first-body")]) true) ∧
    (requestNoRetry "" false (buildRetryHeaders "" false [] "T2")
        (setToken lsR1 (.str "T2")) envDouble401.retry).result
      = .error (.http "second-body" 401
          (.obj [("detail", .str "second-body")]) true) ∧
    (request "" false [] lsR1 envDouble401 true).result
      ≠ (requestNoRetry "" false (buildRetryHeaders "" false [] "T2")
          (setToken lsR1 (.str "T2")) envDouble401.retry).result := by
  refine ⟨rfl, rfl, ?_⟩
  intro h
  have h' : (Except.error (ReqError.http "first-body" 401
        (.obj [("detail", .str "first-body")]) true) :
        Except ReqError ReqResult)
      = Except.error (ReqError.http "second-body" 401
          (.obj [("detail", .str "second-body")]) true) := h
  injection h' with h''
  injection h'' with hm hs hd hn
  exact absurd hm (by decide)

/-- C1 witness: the amended theorem applied to the concrete successful
retry scenario. -/
theorem c1_witness :
    (request "" false [] lsR1 envRefreshOk true).sent.length = 2 ∧
    (request "" false [] lsR1 envRefreshOk true).refreshAttempts = 1 ∧
    (request "" false [] lsR1 envRefreshOk true).result
      = .ok ⟨.obj [("ok", .bool true)], 200, true⟩ := by
  obtain ⟨a, b, c⟩ := c1_refresh_retry_once "" false [] lsR1 envRefreshOk
    ⟨401, .obj [("detail", .str "Not authenticated")]⟩
    ⟨200, .obj [("access_token", .str "T2")]⟩ (.str "T2")
    rfl rfl (by decide) rfl (by decide) rfl (by decide)
  exact ⟨a, b, c.trans rfl⟩

/-- C4: a successful refresh-and-retry replaces only the stored access
token: the result is the retry's success, the stored access token is the
refreshed one, and the stored refresh token is exactly what it was
before the call; likewise the storage effect of a successful
`api.refresh` response never touches the refresh-token key. -/
theorem c4_refresh_replaces_only_access_token (demoUser : String)
    (isFormData : Bool) (init : Headers) (ls : LocalStorage) (env : Fetches)
    (res rr r2 : HttpResponse) (t2 : String) (h1 : env.first = some res)
    (h2 : res.status = 401) (h3 : getRefreshToken ls ≠ "")
    (h4 : env.refreshResp = some rr) (h5 : respOk rr.status = true)
    (h6 : fieldJs rr.data "access_token" = .str t2) (h7 : t2 ≠ "")
    (h8 : env.retry = some r2) (h9 : respOk r2.status = true) :
    (request demoUser isFormData init ls env true).result
      = .ok ⟨r2.data, r2.status, true⟩ ∧
    getToken (request demoUser isFormData init ls env true).ls = t2 ∧
    lsGet (request demoUser isFormData init ls env true).ls REFRESH_KEY
      = lsGet ls REFRESH_KEY ∧
    (∀ (ls2 : LocalStorage) (d : Json),
      lsGet (refreshStore ls2 d) REFRESH_KEY = lsGet ls2 REFRESH_KEY) := by
  have h7' : (Json.str t2).truthy = true := by
    simp [Json.truthy, h7]
  rw [request_refresh_success_path demoUser isFormData init ls env res rr
    (.str t2) h1 h2 h3 h4 h5 h6 h7']
  have hset : setToken ls (.str t2) = lsSet ls TOKEN_KEY t2 := by
    unfold setToken
    rw [if_pos h7', show jsString (Json.str t2) = t2 from by simp [jsString]]
  refine ⟨by rw [h8]; simp [h9], ?_, ?_, ?_⟩
  · show getToken (setToken ls (.str t2)) = t2
    rw [hset]
    unfold getToken
    rw [lsGet_lsSet, if_pos rfl]
    rfl
  · show lsGet (setToken ls (.str t2)) REFRESH_KEY = lsGet ls REFRESH_KEY
    rw [hset, lsGet_lsSet, if_neg (by decide)]
  · intro ls2 d
    unfold refreshStore
    by_cases hc : (fieldJs d "access_token").truthy = true
    · rw [if_pos hc]
      unfold setToken
      by_cases ht : (fieldJs d "access_token").truthy = true
      · rw [if_pos ht, lsGet_lsSet, if_neg (by decide)]
      · rw [if_neg ht, lsGet_lsRemove, if_neg (by decide)]
    · rw [if_neg hc]

/-- C4 witness: the spec scenario — login stored `T1`/`R1`, a protected
call gets 401, refresh returns `T2`, the retry succeeds; afterwards the
stored access token is `T2` and the stored refresh token is still
`R1`. -/
theorem c4_witness :
    (request "" false [] lsT1R1 envRefreshOk true).result
      = .ok ⟨.obj [("ok", .bool true)], 200, true⟩ ∧
    getToken (request "" false [] lsT1R1 envRefreshOk true).ls = "T2" ∧
    lsGet (request "" false [] lsT1R1 envRefreshOk true).ls REFRESH_KEY
      = some "R1" := by
  obtain ⟨a, b, c, _⟩ := c4_refresh_replaces_only_access_token "" false []
    lsT1R1 envRefreshOk ⟨401, .obj [("detail", .str "Not authenticated")]⟩
    ⟨200, .obj [("access_token", .str "T2")]⟩ ⟨200, .obj [("ok", .bool true)]⟩
    "T2" rfl rfl (by decide) rfl (by decide) rfl (by decide) rfl (by decide)
  exact ⟨a, b, c.trans rfl⟩

/-- C2 witness: a 401 against empty storage fails immediately with the
server-provided message, the body and the `needsAuth` flag; no refresh,
no retry, storage untouched. -/
theorem c2_witness :
    request "" false [] []
        ⟨some ⟨401, .obj [("detail", .str "Not authenticated")]⟩, none, none⟩
        true
      = ⟨.error (.http "Not authenticated" 401
            (.obj [("detail", .str "Not authenticated")]) true), [],
          [[("Content-Type", "application/json")]], 0⟩ :=
  (c2_unauthorized_without_refresh_token "" false [] []
      ⟨some ⟨401, .obj [("detail", .str "Not authenticated")]⟩, none, none⟩
      ⟨401, .obj [("detail", .str "Not authenticated")]⟩ rfl rfl rfl).trans
    rfl

/-- C10 witness: the refresh endpoint answers 200 but with no
`access_token`; the stored state is unchanged, the single 401 error is
surfaced, and exactly one refresh exchange was attempted. -/
theorem c10_witness :
    request "" false [] lsR1 envRefreshEmptyBody true
      = ⟨.error (.http "Not authenticated" 401
            (.obj [("detail", .str "Not authenticated")]) true), lsR1,
          [buildHeaders "" false [] (getToken lsR1)], 1⟩ :=
  (c10_refresh_without_access_token "" false [] lsR1 envRefreshEmptyBody
      ⟨401, .obj [("detail", .str "Not authenticated")]⟩
      ⟨200, .obj [("token_type", .str "bearer")]⟩
      rfl rfl (by decide) rfl (by decide) rfl).trans rfl

/-- C7: when the `listStories` network call fails (any thrown error),
the caller receives the built-in two-item demo story list wrapped as a
successful 200/ok result, never an error. -/
theorem c7_liststories_fallback (demoUser : String) (ls : LocalStorage)
    (env : Fetches) (e : ReqError)
    (h : (request demoUser false [] ls env true).result = .error e) :
    (listStories demoUser ls env).1 = ⟨FALLBACK_STORIES, 200, true⟩ ∧
    jsonArrayLength FALLBACK_STORIES = 2 := by
  refine ⟨?_, rfl⟩
  simp only [listStories, h]

/-- C7 witness: a total outage makes `listStories` return the demo
dataset as a 200/ok result. -/
theorem c7_witness :
    (request "" false [] [] envOutage true).result = .error .network ∧
    (listStories "" [] envOutage).1 = ⟨FALLBACK_STORIES, 200, true⟩ ∧
    jsonArrayLength FALLBACK_STORIES = 2 := by
  obtain ⟨a, b⟩ := c7_liststories_fallback "" [] envOutage .network rfl
  exact ⟨rfl, a, b⟩

/-- C6: whatever the locally-guessed optimistic increment, when the
choice submission succeeds and the (unwrapped) payload carries a numeric
`next_episode_index`, the episode-index state converges to that server
value: the trace is the optimistic guess followed by the server's
index. -/
theorem c6_server_index_wins (prev result : Json) (n : Int)
    (h : (choosePayload result).get? "next_episode_index" = some (.num n)) :
    onChooseIndexTrace prev (some result) = [jsAddOne prev, .num n] ∧
    onChooseFinalIndex prev (some result) = .num n := by
  have htr : (choosePayload result).truthy = true := by
    cases hp : choosePayload result <;> rw [hp] at h
    case obj => rfl
    all_goals simp [Json.get?] at h
  have hsn : chooseServerNext (choosePayload result) = some (.num n) := by
    unfold chooseServerNext
    rw [if_pos htr, h]
    rfl
  constructor
  · simp only [onChooseIndexTrace]
    rw [hsn]
  · simp only [onChooseFinalIndex, onChooseIndexTrace]
    rw [hsn]
    rfl

/-- C6 witness: from local index 0, a response carrying
`next_episode_index = 5` makes the state jump optimistically to 1 and
then converge to 5. -/
theorem c6_witness :
    onChooseIndexTrace (.num 0)
        (some (.obj [("next_episode_index", .num 5)]))
      = [.num 1, .num 5] ∧
    onChooseFinalIndex (.num 0)
        (some (.obj [("next_episode_index", .num 5)])) = .num 5 := by
  obtain ⟨a, b⟩ := c6_server_index_wins (.num 0)
    (.obj [("next_episode_index", .num 5)]) 5 rfl
  exact ⟨a.trans rfl, b⟩

/-! ## Header-construction transport lemmas (for C9) -/

theorem hGet_step_other {b : Prop} [Decidable b] (h : Headers) (k v q : String)
    (hk : keyEq q k = false) :
    hGet (if b then hSet h k v else h) q = hGet h q := by
  split
  · rw [hGet_hSet, if_neg (by simp [hk])]
  · rfl

theorem hHas_step_other {b : Prop} [Decidable b] (h : Headers) (k v q : String)
    (hk : keyEq q k = false) :
    hHas (if b then hSet h k v else h) q = hHas h q := by
  split
  · rw [hHas_hSet, hk, Bool.false_or]
  · rfl

theorem ku_step {b : Prop} [Decidable b] (h : Headers) (k v : String)
    (hku : KeysUnique h) : KeysUnique (if b then hSet h k v else h) := by
  split
  · exact ku_hSet _ _ _ hku
  · exact hku

theorem hGet_stepContentType (fd : Bool) (h : Headers) (q : String)
    (hk : keyEq q "Content-Type" = false) :
    hGet (stepContentType fd h) q = hGet h q :=
  hGet_step_other h "Content-Type" "application/json" q hk

theorem hHas_stepContentType (fd : Bool) (h : Headers) (q : String)
    (hk : keyEq q "Content-Type" = false) :
    hHas (stepContentType fd h) q = hHas h q :=
  hHas_step_other h "Content-Type" "application/json" q hk

theorem hGet_stepDemoUser (demoUser : String) (h : Headers) (q : String)
    (hk : keyEq q "X-Demo-User" = false) :
    hGet (stepDemoUser demoUser h) q = hGet h q :=
  hGet_step_other h "X-Demo-User" demoUser q hk

theorem hHas_stepDemoUser (demoUser : String) (h : Headers) (q : String)
    (hk : keyEq q "X-Demo-User" = false) :
    hHas (stepDemoUser demoUser h) q = hHas h q :=
  hHas_step_other h "X-Demo-User" demoUser q hk

theorem ku_stepContentType (fd : Bool) (h : Headers) (hku : KeysUnique h) :
    KeysUnique (stepContentType fd h) :=
  ku_step h "Content-Type" "application/json" hku

theorem ku_stepDemoUser (demoUser : String) (h : Headers)
    (hku : KeysUnique h) : KeysUnique (stepDemoUser demoUser h) :=
  ku_step h "X-Demo-User" demoUser hku

theorem kAuthCT : keyEq "Authorization" "Content-Type" = false := by decide

theorem kAuthXD : keyEq "Authorization" "X-Demo-User" = false := by decide

theorem buildHeaders_auth_of_has (demoUser : String) (fd : Bool)
    (init : Headers) (token : String)
    (hh : hHas init "Authorization" = true) :
    hGet (buildHeaders demoUser fd init token) "Authorization"
      = hGet (hNorm init) "Authorization" := by
  simp only [buildHeaders]
  have hhX : hHas (stepDemoUser demoUser (stepContentType fd (hNorm init)))
      "Authorization" = true := by
    rw [hHas_stepDemoUser _ _ _ kAuthXD, hHas_stepContentType _ _ _ kAuthCT,
      hHas_hNorm]
    exact hh
  rw [if_neg (by rw [hhX]; simp)]
  rw [hGet_stepDemoUser _ _ _ kAuthXD, hGet_stepContentType _ _ _ kAuthCT]

theorem buildHeaders_auth_of_not_has (demoUser : String) (fd : Bool)
    (init : Headers) (token : String)
    (hh : hHas init "Authorization" = false) (ht : token ≠ "") :
    hGet (buildHeaders demoUser fd init token) "Authorization"
      = some ("Bearer " ++ token) := by
  simp only [buildHeaders]
  have hhX : hHas (stepDemoUser demoUser (stepContentType fd (hNorm init)))
      "Authorization" = false := by
    rw [hHas_stepDemoUser _ _ _ kAuthXD, hHas_stepContentType _ _ _ kAuthCT,
      hHas_hNorm]
    exact hh
  rw [if_pos (by rw [hhX]; simp [ht])]
  rw [hGet_hSet, if_pos (keyEq_refl _)]

theorem buildRetryHeaders_auth (demoUser : String) (fd : Bool)
    (init : Headers) (newAccess : String) :
    hGet (buildRetryHeaders demoUser fd init newAccess) "Authorization"
      = some ("Bearer " ++ newAccess) ∧
    hHas (buildRetryHeaders demoUser fd init newAccess) "Authorization"
      = true ∧
    KeysUnique (buildRetryHeaders demoUser fd init newAccess) := by
  simp only [buildRetryHeaders]
  refine ⟨?_, ?_, ?_⟩
  · rw [hGet_hSet, if_pos (keyEq_refl _)]
  · rw [hHas_hSet, keyEq_refl]
    rfl
  · exact ku_hSet _ _ _
      (ku_stepDemoUser _ _ (ku_stepContentType _ _ (ku_hNorm init)))

theorem buildHeaders_on_retry (demoUser : String) (fd : Bool)
    (init : Headers) (token newAccess : String) :
    hGet (buildHeaders demoUser fd
        (buildRetryHeaders demoUser fd init newAccess) token)
        "Authorization" = some ("Bearer " ++ newAccess) := by
  obtain ⟨hg2, hh2, hku⟩ := buildRetryHeaders_auth demoUser fd init newAccess
  simp only [buildHeaders]
  rw [hNorm_of_ku _ hku]
  have hhX : hHas (stepDemoUser demoUser (stepContentType fd
      (buildRetryHeaders demoUser fd init newAccess))) "Authorization"
      = true := by
    rw [hHas_stepDemoUser _ _ _ kAuthXD, hHas_stepContentType _ _ _ kAuthCT]
    exact hh2
  rw [if_neg (by rw [hhX]; simp)]
  rw [hGet_stepDemoUser _ _ _ kAuthXD, hGet_stepContentType _ _ _ kAuthCT]
  exact hg2

/-- C9: on the first attempt the bearer header is attached only when the
caller did not set `Authorization` (a caller-supplied value is kept);
on the retry after a successful refresh, `Authorization` is set to the
new access token unconditionally, whatever the caller supplied. -/
theorem c9_authorization_header (demoUser : String) (isFormData : Bool)
    (init : Headers) (ls : LocalStorage) (env : Fetches)
    (res rr : HttpResponse) (tok : Json) (h1 : env.first = some res)
    (h2 : res.status = 401) (h3 : getRefreshToken ls ≠ "")
    (h4 : env.refreshResp = some rr) (h5 : respOk rr.status = true)
    (h6 : fieldJs rr.data "access_token" = tok) (h7 : tok.truthy = true) :
    (hHas init "Authorization" = true →
      hGet ((request demoUser isFormData init ls env true).sent.headD [])
          "Authorization" = hGet (hNorm init) "Authorization") ∧
    (hHas init "Authorization" = false → getToken ls ≠ "" →
      hGet ((request demoUser isFormData init ls env true).sent.headD [])
          "Authorization" = some ("Bearer " ++ getToken ls)) ∧
    hGet ((request demoUser isFormData init ls env true).sent.getLastD [])
        "Authorization" = some ("Bearer " ++ jsString tok) := by
  rw [request_refresh_success_path demoUser isFormData init ls env res rr tok
    h1 h2 h3 h4 h5 h6 h7]
  refine ⟨?_, ?_, ?_⟩
  · intro hh
    exact buildHeaders_auth_of_has demoUser isFormData init (getToken ls) hh
  · intro hh ht
    exact buildHeaders_auth_of_not_has demoUser isFormData init
      (getToken ls) hh ht
  · exact buildHeaders_on_retry demoUser isFormData init
      (getToken (setToken ls tok)) (jsString tok)

/-- C9 witness: a caller-supplied `Authorization` header survives the
first attempt untouched and is overwritten with the refreshed token on
the retry. -/
theorem c9_witness :
    hGet ((request "" false [("Authorization", "Bearer CALLER")] lsT1R1
        envRefreshOk true).sent.headD []) "Authorization"
      = some "Bearer CALLER" ∧
    hGet ((request "" false [("Authorization", "Bearer CALLER")] lsT1R1
        envRefreshOk true).sent.getLastD []) "Authorization"
      = some "Bearer T2" := by
  obtain ⟨a, _, b⟩ := c9_authorization_header "" false
    [("Authorization", "Bearer CALLER")] lsT1R1 envRefreshOk
    ⟨401, .obj [("detail", .str "Not authenticated")]⟩
    ⟨200, .obj [("access_token", .str "T2")]⟩ (.str "T2")
    rfl rfl (by decide) rfl (by decide) rfl (by decide)
  exact ⟨(a (by decide)).trans (by decide), b.trans rfl⟩

/-! ## Session-storage lemmas (for C3) -/

theorem lsGet_setRefreshToken_token (ls : LocalStorage) (v : Json) :
    lsGet (setRefreshToken ls v) TOKEN_KEY = lsGet ls TOKEN_KEY := by
  unfold setRefreshToken
  split
  · rw [lsGet_lsSet, if_neg (by decide)]
  · rw [lsGet_lsRemove, if_neg (by decide)]

theorem nodup_setToken (ls : LocalStorage) (v : Json) (h : NodupKeys ls) :
    NodupKeys (setToken ls v) := by
  unfold setToken
  split
  · exact nodupKeys_lsSet _ _ _ h
  · exact nodupKeys_lsRemove _ _ h

theorem nodup_setRefreshToken (ls : LocalStorage) (v : Json)
    (h : NodupKeys ls) : NodupKeys (setRefreshToken ls v) := by
  unfold setRefreshToken
  split
  · exact nodupKeys_lsSet _ _ _ h
  · exact nodupKeys_lsRemove _ _ h

theorem loginStore_spec (ls : LocalStorage) (d : Json) (t : String)
    (ht : fieldJs d "access_token" = .str t) (hne : t ≠ "")
    (hnd : NodupKeys ls) :
    lsGet (loginStore ls d) TOKEN_KEY = some t ∧
    NodupKeys (loginStore ls d) := by
  simp only [loginStore]
  rw [ht]
  have htr : (Json.str t).truthy = true := by simp [Json.truthy, hne]
  rw [if_pos htr]
  have hset : setToken ls (.str t) = lsSet ls TOKEN_KEY t := by
    unfold setToken
    rw [if_pos htr, show jsString (Json.str t) = t from by simp [jsString]]
  constructor
  · split
    · rw [lsGet_setRefreshToken_token, hset, lsGet_lsSet, if_pos rfl]
    · rw [hset, lsGet_lsSet, if_pos rfl]
  · split
    · exact nodup_setRefreshToken _ _ (hset ▸ nodupKeys_lsSet _ _ _ hnd)
    · exact hset ▸ nodupKeys_lsSet _ _ _ hnd

theorem refreshStore_spec (ls : LocalStorage) (d : Json) (t : String)
    (ht : fieldJs d "access_token" = .str t) (hne : t ≠ "")
    (hnd : NodupKeys ls) :
    lsGet (refreshStore ls d) TOKEN_KEY = some t ∧
    NodupKeys (refreshStore ls d) := by
  simp only [refreshStore]
  rw [ht]
  have htr : (Json.str t).truthy = true := by simp [Json.truthy, hne]
  rw [if_pos htr]
  have hset : setToken ls (.str t) = lsSet ls TOKEN_KEY t := by
    unfold setToken
    rw [if_pos htr, show jsString (Json.str t) = t from by simp [jsString]]
  rw [hset]
  exact ⟨by rw [lsGet_lsSet, if_pos rfl], nodupKeys_lsSet _ _ _ hnd⟩

theorem registerStore_eq_loginStore : @registerStore = @loginStore := rfl

/-- C3: over any sequence of successful login/register/refresh/logout
operations whose auth responses carry a nonempty access token, storage
keeps at most one entry under the single access-token key, and the
stored access token is exactly the one of the most recent successful
auth response (cleared by logout). -/
theorem c3_single_stored_access_token (evs : List AuthEvent)
    (ls : LocalStorage) (hcarry : ∀ e ∈ evs, carriesAccessToken e)
    (hnd : NodupKeys ls) :
    NodupKeys (runAuthEvents ls evs) ∧
    storedCount (runAuthEvents ls evs) TOKEN_KEY ≤ 1 ∧
    lsGet (runAuthEvents ls evs) TOKEN_KEY
      = mostRecentAuthToken (lsGet ls TOKEN_KEY) evs := by
  induction evs generalizing ls with
  | nil => exact ⟨hnd, storedCount_le_one _ _ hnd, rfl⟩
  | cons e t ih =>
    have hce := hcarry e (List.mem_cons_self e t)
    have hct : ∀ e' ∈ t, carriesAccessToken e' := fun e' he' =>
      hcarry e' (List.mem_cons_of_mem _ he')
    have hrun : runAuthEvents ls (e :: t)
        = runAuthEvents (applyAuthEvent ls e) t := rfl
    cases e with
    | login d =>
      obtain ⟨tk, ht, hne⟩ := hce
      obtain ⟨hget, hnd'⟩ := loginStore_spec ls d tk ht hne hnd
      obtain ⟨ihn, ihc, ihg⟩ := ih (applyAuthEvent ls (.login d)) hct hnd'
      refine ⟨hrun ▸ ihn, hrun ▸ ihc, ?_⟩
      rw [hrun, ihg]
      show mostRecentAuthToken (lsGet (loginStore ls d) TOKEN_KEY) t
        = mostRecentAuthToken
            (some (jsString (fieldJs d "access_token"))) t
      rw [hget, ht, show jsString (Json.str tk) = tk from by simp [jsString]]
    | register d =>
      obtain ⟨tk, ht, hne⟩ := hce
      have hreg : registerStore ls d = loginStore ls d := by
        rw [registerStore_eq_loginStore]
      obtain ⟨hget, hnd'⟩ := loginStore_spec ls d tk ht hne hnd
      have hnd'' : NodupKeys (applyAuthEvent ls (.register d)) := by
        show NodupKeys (registerStore ls d)
        rw [hreg]
        exact hnd'
      obtain ⟨ihn, ihc, ihg⟩ := ih (applyAuthEvent ls (.register d)) hct hnd''
      refine ⟨hrun ▸ ihn, hrun ▸ ihc, ?_⟩
      rw [hrun, ihg]
      show mostRecentAuthToken (lsGet (registerStore ls d) TOKEN_KEY) t
        = mostRecentAuthToken
            (some (jsString (fieldJs d "access_token"))) t
      rw [hreg, hget, ht,
        show jsString (Json.str tk) = tk from by simp [jsString]]
    | refresh d =>
      obtain ⟨tk, ht, hne⟩ := hce
      obtain ⟨hget, hnd'⟩ := refreshStore_spec ls d tk ht hne hnd
      obtain ⟨ihn, ihc, ihg⟩ := ih (applyAuthEvent ls (.refresh d)) hct hnd'
      refine ⟨hrun ▸ ihn, hrun ▸ ihc, ?_⟩
      rw [hrun, ihg]
      show mostRecentAuthToken (lsGet (refreshStore ls d) TOKEN_KEY) t
        = mostRecentAuthToken
            (some (jsString (fieldJs d "access_token"))) t
      rw [hget, ht, show jsString (Json.str tk) = tk from by simp [jsString]]
    | logout =>
      have hnd' : NodupKeys (applyAuthEvent ls .logout) :=
        nodupKeys_lsRemove _ _ (nodupKeys_lsRemove _ _ hnd)
      obtain ⟨ihn, ihc, ihg⟩ := ih (applyAuthEvent ls .logout) hct hnd'
      refine ⟨hrun ▸ ihn, hrun ▸ ihc, ?_⟩
      rw [hrun, ihg]
      show mostRecentAuthToken
          (lsGet (lsRemove (lsRemove ls TOKEN_KEY) REFRESH_KEY) TOKEN_KEY) t
        = mostRecentAuthToken none t
      rw [lsGet_lsRemove, if_neg (by decide), lsGet_lsRemove, if_pos rfl]

/-- C3 witness: the concrete history login/refresh/logout/login leaves
exactly the last login's access token stored. -/
theorem c3_witness :
    NodupKeys (runAuthEvents [] demoAuthEvents) ∧
    storedCount (runAuthEvents [] demoAuthEvents) TOKEN_KEY ≤ 1 ∧
    lsGet (runAuthEvents [] demoAuthEvents) TOKEN_KEY = some "T3" := by
  obtain ⟨a, b, c⟩ := c3_single_stored_access_token demoAuthEvents []
    (by
      intro e he
      simp only [demoAuthEvents, List.mem_cons, List.not_mem_nil,
        or_false] at he
      rcases he with rfl | rfl | rfl | rfl
      · exact ⟨"T1", rfl, by decide⟩
      · exact ⟨"T2", rfl, by decide⟩
      · exact trivial
      · exact ⟨"T3", rfl, by decide⟩)
    (by simp [NodupKeys])
  exact ⟨a, b, c.trans rfl⟩

/-- C5 (amended): for the story, choice and quiz-question create
handlers, a failed create removes the placeholder (the entry under the
fresh temporary id) and restores the pre-call list exactly; the EPISODE
create handler instead re-fetches the list on failure — a successful
refetch replaces local state with the server list (not necessarily the
pre-call list), and when the refetch itself also fails the optimistic
placeholder remains in the list. -/
theorem c5_create_rollback (tmpId : String) (payload : Json)
    (pre : List Json) (server epPre : List Json) (epPayload : Json)
    (hid : idIsTmp (withTmpId tmpId payload) tmpId = true)
    (hfresh : ∀ it ∈ pre, idIsTmp it tmpId = false) :
    storyCreateFailed pre tmpId payload = pre ∧
    choiceCreateFailed pre tmpId payload = pre ∧
    quizCreateFailed pre tmpId payload = pre ∧
    episodeCreateFailed epPre epPayload (some server) = server ∧
    epPayload ∈ episodeCreateFailed epPre epPayload none := by
  have hpre : pre.filter (fun it => !(idIsTmp it tmpId)) = pre :=
    List.filter_eq_self.mpr (fun a ha => by rw [hfresh a ha]; rfl)
  have hone : List.filter (fun it => !(idIsTmp it tmpId))
      [withTmpId tmpId payload] = [] := by
    rw [List.filter_cons, if_neg (by rw [hid]; simp)]
    rfl
  refine ⟨?_, ?_, ?_, rfl, ?_⟩
  · unfold storyCreateFailed
    rw [List.filter_cons, if_neg (by rw [hid]; simp), hpre]
  · unfold choiceCreateFailed
    rw [List.filter_append, hpre, hone, List.append_nil]
  · unfold quizCreateFailed
    rw [List.filter_append, hpre, hone, List.append_nil]
  · show epPayload ∈ sortEpisodes (epPre ++ [epPayload])
    unfold sortEpisodes
    exact List.mem_mergeSort.mpr
      (List.mem_append_right _ (List.mem_singleton.mpr rfl))

/-- C5 (counterexample to the claim as stated): an episode create whose
network call fails AND whose recovery refetch also fails leaves the
optimistic placeholder in the list — the pre-call state (the empty
list) is NOT restored. -/
theorem c5_counterexample :
    episodeCreateFailed [] epDemoPayload none = [epDemoPayload] ∧
    episodeCreateFailed [] epDemoPayload none ≠ [] := by
  have h : episodeCreateFailed [] epDemoPayload none = [epDemoPayload] := by
    simp [episodeCreateFailed, sortEpisodes]
  exact ⟨h, by rw [h]; exact List.cons_ne_nil _ _⟩

/-- C5 witness: the amended theorem at a concrete list with one existing
server story and a fresh temporary id. -/
theorem c5_witness :
    storyCreateFailed [.obj [("id", .num 7), ("title", .str "Existing")]]
        "tmp-1700000000000" (.obj [("title", .str "New Story")])
      = [.obj [("id", .num 7), ("title", .str "Existing")]] ∧
    choiceCreateFailed [.obj [("id", .num 7), ("title", .str "Existing")]]
        "tmp-1700000000000" (.obj [("title", .str "New Story")])
      = [.obj [("id", .num 7), ("title", .str "Existing")]] ∧
    quizCreateFailed [.obj [("id", .num 7), ("title", .str "Existing")]]
        "tmp-1700000000000" (.obj [("title", .str "New Story")])
      = [.obj [("id", .num 7), ("title", .str "Existing")]] ∧
    episodeCreateFailed [] epDemoPayload (some [.obj [("index", .num 0)]])
      = [.obj [("index", .num 0)]] ∧
    epDemoPayload ∈ episodeCreateFailed [] epDemoPayload none := by
  exact c5_create_rollback "tmp-1700000000000"
    (.obj [("title", .str "New Story")])
    [.obj [("id", .num 7), ("title", .str "Existing")]]
    [.obj [("index", .num 0)]] [] epDemoPayload rfl
    (by
      intro it hit
      rw [List.mem_singleton] at hit
      subst hit
      rfl)

end SkillStory
